import Mathlib

/-! Shallow embedding of the hunter strategies of axelrod/strategies/hunter.py.
A Move is one of the two game actions, and a PlayerView is the read-only view
a strategy receives of one player: the recorded move history together with the
derived cooperation and defection counts maintained by the surrounding
framework. Each strategy method of hunter.py is embedded as a Lean function of
the two views that returns the chosen Move. All numeric ratios of the source
are modelled exactly over the rationals. -/

/-- A single move of the iterated game: C (cooperate) or D (defect). -/
inductive Move where
  | C : Move
  | D : Move
  deriving DecidableEq, Repr

/-- Modelled from the spec: the HistoryView each detector consumes (the Player
bookkeeping lives outside this file): the ordered move history plus the two
running counts of cooperations and defections attached to it. -/
structure PlayerView where
  history : List Move
  cooperations : Nat
  defections : Nat
  deriving DecidableEq, Repr

/-- Total indexing with default C. Python indexing h[i] is always in range
where the strategies below use it; the checked variants account for the
possibility of a range error explicitly. -/
def nth (h : List Move) (i : Nat) : Move := h.getD i Move.C

/-- The Python slice h[a:b] for 0 <= a <= b. -/
def pySlice (h : List Move) (a b : Nat) : List Move := (h.drop a).take (b - a)

/-- list(itertools.islice(itertools.cycle(block), 0, n)): the block repeated
cyclically, truncated to length n. -/
def tile (block : List Move) (n : Nat) : List Move :=
  (List.range n).map (fun j => block.getD (j % block.length) Move.C)

/-- h.count of C entries. -/
def countC (h : List Move) : Nat := h.count Move.C

/-- h.count of D entries. -/
def countD (h : List Move) : Nat := h.count Move.D

/-- DefectorHunter.strategy of hunter.py. -/
def DefectorHunter.strategy (self opponent : PlayerView) : Move :=
  if 4 ≤ self.history.length ∧ opponent.history.length = opponent.defections then Move.D
  else Move.C

/-- CooperatorHunter.strategy of hunter.py. -/
def CooperatorHunter.strategy (self opponent : PlayerView) : Move :=
  if 4 ≤ self.history.length ∧ opponent.history.length = opponent.cooperations then Move.D
  else Move.C

/-- AlternatorHunter.strategy of hunter.py: all adjacent pairs of opponent
moves differ, own history at least 6 long. -/
def AlternatorHunter.strategy (self opponent : PlayerView) : Move :=
  if 6 ≤ self.history.length ∧
      ∀ i ∈ List.range (opponent.history.length - 1),
        nth opponent.history i ≠ nth opponent.history (i + 1) then Move.D
  else Move.C

/-- The loop body of CycleHunter.detect_cycle over the remaining candidate
indices i (candidate period i + 1): the first i whose tiling reproduces the
history returns False when i = 0 and True otherwise; falling off the loop
returns False. -/
def CycleHunter.detectCycleGo (history : List Move) : List Nat → Bool
  | [] => false
  | i :: rest =>
    if history = tile (history.take (i + 1)) history.length then
      if i = 0 then false else true
    else CycleHunter.detectCycleGo history rest

/-- CycleHunter.detect_cycle of hunter.py: for i in range(len(history) // 2),
compare history to its first i + 1 moves tiled to full length. -/
def CycleHunter.detect_cycle (history : List Move) : Bool :=
  CycleHunter.detectCycleGo history (List.range (history.length / 2))

/-- CycleHunter.strategy of hunter.py. -/
def CycleHunter.strategy (self opponent : PlayerView) : Move :=
  if CycleHunter.detect_cycle opponent.history then Move.D else Move.C

/-- EventualCycleHunter.detect_eventual_cycle of hunter.py: the trailing
window history[-offset:] (for positive offset) is compared to tilings of its
own first i + 1 moves for i in range(len(window) // 2). -/
def EventualCycleHunter.detect_eventual_cycle (history : List Move)
    (offset : Nat := 15) : Bool :=
  let history_tail := history.drop (history.length - offset)
  (List.range (history_tail.length / 2)).any
    (fun i => decide (history_tail = tile (history_tail.take (i + 1)) history_tail.length))

/-- EventualCycleHunter.strategy of hunter.py. -/
def EventualCycleHunter.strategy (self opponent : PlayerView) : Move :=
  if opponent.history.length < 10 then Move.C
  else if opponent.history.length = opponent.cooperations then Move.C
  else if EventualCycleHunter.detect_eventual_cycle opponent.history then Move.D
  else Move.C

/-- The window count of MathConstantHunter.strategy: C entries of the opponent
slice plus C entries of the own slice over indices a to b. -/
def MathConstantHunter.comboCount (self opponent : PlayerView) (a b : Nat) : Nat :=
  countC (pySlice opponent.history a b) + countC (pySlice self.history a b)

/-- The window ratio of MathConstantHunter.strategy:
0.5 * (window count) / (window length). -/
def MathConstantHunter.comboRatio (self opponent : PlayerView) (a b : Nat) : ℚ :=
  (0.5 : ℚ) * (MathConstantHunter.comboCount self opponent a b : ℚ) / ((b - a : Nat) : ℚ)

/-- MathConstantHunter.strategy of hunter.py, with the three float ratios of
the source modelled exactly over the rationals. -/
def MathConstantHunter.strategy (self opponent : PlayerView) : Move :=
  let n := self.history.length
  if 8 ≤ n ∧ opponent.cooperations ≠ 0 ∧ opponent.defections ≠ 0 then
    if |MathConstantHunter.comboRatio self opponent 0 (n / 2) -
          MathConstantHunter.comboRatio self opponent (n / 4) (3 * n / 4)| < (0.2 : ℚ) ∧
        |MathConstantHunter.comboRatio self opponent 0 (n / 2) -
          MathConstantHunter.comboRatio self opponent (n / 2) n| < (0.2 : ℚ) then Move.D
    else Move.C
  else Move.C

/-- countCC of RandomHunter.strategy: the number of indices i below n - 1 with
own move i equal to C and opponent move i + 1 equal to C. -/
def RandomHunter.countCC (self opponent : PlayerView) : Nat :=
  ((List.range (self.history.length - 1)).filter
    (fun i => decide (nth self.history i = Move.C ∧ nth opponent.history (i + 1) = Move.C))).length

/-- countDD of RandomHunter.strategy: the number of indices i below n - 1 with
own move i equal to D and opponent move i + 1 equal to D. -/
def RandomHunter.countDD (self opponent : PlayerView) : Nat :=
  ((List.range (self.history.length - 1)).filter
    (fun i => decide (nth self.history i = Move.D ∧ nth opponent.history (i + 1) = Move.D))).length

/-- The probabilities list built by RandomHunter.strategy: the conditional
cooperate-after-cooperate frequency when the own C count excluding the last
round exceeds 5, then the defect-after-defect frequency when the own D count
excluding the last round exceeds 5. -/
def RandomHunter.probabilities (self opponent : PlayerView) : List ℚ :=
  let hInit := self.history.take (self.history.length - 1)
  (if 5 < countC hInit then
    [(RandomHunter.countCC self opponent : ℚ) / (countC hInit : ℚ)]
  else [])
    ++ (if 5 < countD hInit then
      [(RandomHunter.countDD self opponent : ℚ) / (countD hInit : ℚ)]
    else [])

/-- RandomHunter.strategy of hunter.py, with the float frequencies of the
source modelled exactly over the rationals. -/
def RandomHunter.strategy (self opponent : PlayerView) : Move :=
  if 10 < self.history.length then
    if RandomHunter.probabilities self opponent ≠ [] ∧
        ∀ p ∈ RandomHunter.probabilities self opponent,
          |p - (0.5 : ℚ)| < (0.25 : ℚ) then Move.D
    else Move.C
  else Move.C

/-- Division returning none on a zero denominator, modelling the Python
ZeroDivisionError of a float division. -/
def divQChecked (a b : ℚ) : Option ℚ := if b = 0 then none else some (a / b)

/-- AlternatorHunter.strategy with every history index access checked,
modelling the Python IndexError: none exactly when some accessed index is out
of range. -/
def AlternatorHunter.strategyChecked (self opponent : PlayerView) : Option Move := do
  let oh := opponent.history
  let diffs ← (List.range (oh.length - 1)).mapM (fun i => do
    let a ← oh[i]?
    let b ← oh[i + 1]?
    pure (decide (a ≠ b)))
  pure (if 6 ≤ self.history.length ∧ diffs.all (fun d => d) then Move.D else Move.C)

/-- MathConstantHunter.strategy with every division checked: none exactly when
some computed window ratio divides by zero. -/
def MathConstantHunter.strategyChecked (self opponent : PlayerView) : Option Move :=
  let n := self.history.length
  if 8 ≤ n ∧ opponent.cooperations ≠ 0 ∧ opponent.defections ≠ 0 then do
    let ratio1 ← divQChecked
      ((0.5 : ℚ) * (MathConstantHunter.comboCount self opponent 0 (n / 2) : ℚ))
      ((n / 2 - 0 : Nat) : ℚ)
    let ratio2 ← divQChecked
      ((0.5 : ℚ) * (MathConstantHunter.comboCount self opponent (n / 4) (3 * n / 4) : ℚ))
      ((3 * n / 4 - n / 4 : Nat) : ℚ)
    let ratio3 ← divQChecked
      ((0.5 : ℚ) * (MathConstantHunter.comboCount self opponent (n / 2) n : ℚ))
      ((n - n / 2 : Nat) : ℚ)
    pure (if |ratio1 - ratio2| < (0.2 : ℚ) ∧ |ratio1 - ratio3| < (0.2 : ℚ) then Move.D
      else Move.C)
  else pure Move.C

/-- RandomHunter.strategy with every history index access and every division
checked: none exactly when an accessed index is out of range or a computed
frequency divides by zero. -/
def RandomHunter.strategyChecked (self opponent : PlayerView) : Option Move :=
  let n := self.history.length
  if 10 < n then do
    let hInit := self.history.take (n - 1)
    let l1 ←
      if 5 < countC hInit then do
        let flags ← (List.range (n - 1)).mapM (fun i => do
          let a ← self.history[i]?
          let b ← opponent.history[i + 1]?
          pure (decide (a = Move.C ∧ b = Move.C)))
        let cc := (flags.filter (fun f => f)).length
        let p ← divQChecked (cc : ℚ) (countC hInit : ℚ)
        pure [p]
      else pure ([] : List ℚ)
    let l2 ←
      if 5 < countD hInit then do
        let flags ← (List.range (n - 1)).mapM (fun i => do
          let a ← self.history[i]?
          let b ← opponent.history[i + 1]?
          pure (decide (a = Move.D ∧ b = Move.D)))
        let dd := (flags.filter (fun f => f)).length
        let p ← divQChecked (dd : ℚ) (countD hInit : ℚ)
        pure [p]
      else pure ([] : List ℚ)
    pure (if l1 ++ l2 ≠ [] ∧ ∀ p ∈ l1 ++ l2, |p - (0.5 : ℚ)| < (0.25 : ℚ) then Move.D
      else Move.C)
  else pure Move.C

/-- Modelled from the spec: the framework maintains the two counts of a view
as derived values of its history, so a well formed view carries cooperations
equal to the number of C entries and defections equal to the number of D
entries of its history. -/
def CountsExact (v : PlayerView) : Prop :=
  v.cooperations = countC v.history ∧ v.defections = countD v.history

/-- Modelled from the spec: a MatchView pairs the two views of one match at
one round, so both histories hold exactly one move per completed round and
have equal length, and both views carry exact derived counts. -/
def WfPair (self opponent : PlayerView) : Prop :=
  self.history.length = opponent.history.length ∧ CountsExact self ∧ CountsExact opponent

/-- Checked indexing agrees with total indexing in range. -/
theorem getElem?_eq_some_nth (xs : List Move) (i : Nat) (h : i < xs.length) :
    xs[i]? = some (nth xs i) := by
  have hx : nth xs i = xs[i] := by
    rw [nth, List.getD_eq_getElem?_getD, List.getElem?_eq_getElem h]
    rfl
  rw [List.getElem?_eq_getElem h, hx]

/-- A checked traversal of two histories at indices i and i + 1 succeeds and
agrees with the total traversal as soon as every accessed index is in range. -/
theorem mapM_get2 (xs ys : List Move) (g : Move → Move → Bool) (l : List Nat)
    (hx : ∀ i ∈ l, i < xs.length) (hy : ∀ i ∈ l, i + 1 < ys.length) :
    (l.mapM (fun i => do
      let a ← xs[i]?
      let b ← ys[i + 1]?
      pure (g a b)))
    = some (l.map (fun i => g (nth xs i) (nth ys (i + 1)))) := by
  induction l with
  | nil => rfl
  | cons i l ih =>
    have h1 := getElem?_eq_some_nth xs i (hx i (List.mem_cons_self i l))
    have h2 := getElem?_eq_some_nth ys (i + 1) (hy i (List.mem_cons_self i l))
    rw [List.mapM_cons]
    simp only [h1, h2,
      ih (fun j hj => hx j (List.mem_cons_of_mem i hj))
        (fun j hj => hy j (List.mem_cons_of_mem i hj))]
    simp

/-- Filtering the mapped decisions of a predicate counts the indices
satisfying the predicate. -/
theorem length_filter_map_decide (P : Nat → Prop) [DecidablePred P] (l : List Nat) :
    ((l.map (fun i => decide (P i))).filter (fun f => f)).length
      = (l.filter (fun i => decide (P i))).length := by
  rw [List.filter_map, List.length_map]
  rfl

/-- Each history entry is a C or a D, so the two counts add to the length. -/
theorem countC_add_countD (h : List Move) : countC h + countD h = h.length := by
  induction h with
  | nil => rfl
  | cons m t ih =>
    cases m <;> simp [countC, countD, List.count_cons] at ih ⊢ <;> omega

/-- When the full history is not the tiling of its first move, the candidate
loop of detect_cycle reports a cycle exactly when some listed candidate index
tiles the history. -/
theorem detectCycleGo_eq_true_iff (h : List Move) (l : List Nat)
    (h0 : ¬ h = tile (h.take 1) h.length) :
    CycleHunter.detectCycleGo h l = true ↔
      ∃ i ∈ l, h = tile (h.take (i + 1)) h.length := by
  induction l with
  | nil => simp [CycleHunter.detectCycleGo]
  | cons a rest ih =>
    by_cases hp : h = tile (h.take (a + 1)) h.length
    · have ha : a ≠ 0 := by
        rintro rfl
        exact h0 (by simpa using hp)
      have hl : CycleHunter.detectCycleGo h (a :: rest) = true := by
        simp only [CycleHunter.detectCycleGo]
        rw [if_pos hp, if_neg ha]
      simp only [hl, true_iff]
      exact ⟨a, List.mem_cons_self a rest, hp⟩
    · have hl : CycleHunter.detectCycleGo h (a :: rest) =
          CycleHunter.detectCycleGo h rest := by
        simp [CycleHunter.detectCycleGo, hp]
      rw [hl, ih]
      constructor
      · rintro ⟨i, hi, hpi⟩
        exact ⟨i, List.mem_cons_of_mem a hi, hpi⟩
      · rintro ⟨i, hi, hpi⟩
        rcases List.mem_cons.mp hi with rfl | hi
        · exact absurd hpi hp
        · exact ⟨i, hi, hpi⟩

/-- A history reproduced by tiling its first move makes the candidate loop
return no cycle at once, without testing any further candidate. -/
theorem detectCycleGo_cons_zero (h : List Move) (rest : List Nat)
    (h0 : h = tile (h.take 1) h.length) :
    CycleHunter.detectCycleGo h (0 :: rest) = false := by
  have h1 : h = tile (h.take (0 + 1)) h.length := by simpa using h0
  simp only [CycleHunter.detectCycleGo]
  rw [if_pos h1]
  simp

/-- Characterization of detect_cycle: a cycle is reported exactly when the
history is not the tiling of its first move and some period between 2 and
half the length tiles the history exactly. -/
theorem detect_cycle_eq_true_iff (h : List Move) :
    CycleHunter.detect_cycle h = true ↔
      (tile (h.take 1) h.length ≠ h ∧
        ∃ p, 2 ≤ p ∧ p ≤ h.length / 2 ∧ tile (h.take p) h.length = h) := by
  unfold CycleHunter.detect_cycle
  by_cases h0 : h = tile (h.take 1) h.length
  · constructor
    · intro htrue
      exfalso
      rcases Nat.eq_zero_or_pos (h.length / 2) with hz | hpos
      · rw [hz] at htrue
        exact absurd htrue (by simp [CycleHunter.detectCycleGo])
      · obtain ⟨m, hm⟩ := Nat.exists_eq_succ_of_ne_zero hpos.ne'
        rw [hm, List.range_succ_eq_map, detectCycleGo_cons_zero h _ h0] at htrue
        exact Bool.false_ne_true htrue
    · rintro ⟨hne, _⟩
      exact absurd h0.symm hne
  · rw [detectCycleGo_eq_true_iff h _ h0]
    constructor
    · rintro ⟨i, hi, hpi⟩
      have hi2 : i < h.length / 2 := List.mem_range.mp hi
      have hne : i ≠ 0 := by
        rintro rfl
        exact h0 hpi
      exact ⟨fun he => h0 he.symm, i + 1, by omega, by omega, hpi.symm⟩
    · rintro ⟨hne, p, hp2, hple, hpt⟩
      refine ⟨p - 1, List.mem_range.mpr (by omega), ?_⟩
      have hp : p - 1 + 1 = p := by omega
      rw [hp]
      exact hpt.symm

/-- A history of at most three moves never reports a cycle: the candidate
range holds at most the excluded period one. -/
theorem detect_cycle_short (h : List Move) (hlen : h.length ≤ 3) :
    CycleHunter.detect_cycle h = false := by
  unfold CycleHunter.detect_cycle
  have hd : h.length / 2 = 0 ∨ h.length / 2 = 1 := by omega
  rcases hd with h2 | h2
  · rw [h2]
    rfl
  · rw [h2]
    have hr : List.range 1 = [0] := rfl
    rw [hr]
    simp [CycleHunter.detectCycleGo]

/-- Characterization of detect_eventual_cycle at the default offset: some
period between 1 and half the trailing window length tiles the window. -/
theorem detect_eventual_cycle_eq_true_iff (h : List Move) :
    EventualCycleHunter.detect_eventual_cycle h = true ↔
      ∃ p, 1 ≤ p ∧ p ≤ (h.drop (h.length - 15)).length / 2 ∧
        tile ((h.drop (h.length - 15)).take p) (h.drop (h.length - 15)).length
          = h.drop (h.length - 15) := by
  simp only [EventualCycleHunter.detect_eventual_cycle]
  rw [List.any_eq_true]
  constructor
  · rintro ⟨i, hi, hpi⟩
    have hir := List.mem_range.mp hi
    exact ⟨i + 1, by omega, by omega, (of_decide_eq_true hpi).symm⟩
  · rintro ⟨p, hp1, hple, hpt⟩
    refine ⟨p - 1, List.mem_range.mpr (by omega), decide_eq_true ?_⟩
    have hp : p - 1 + 1 = p := by omega
    rw [hp]
    exact hpt.symm

/-- Claim C1: CycleHunter.strategy defects exactly when detect_cycle reports a
cycle; detect_cycle holds exactly when the history is not reproduced by tiling
its first move and some period p with 2 <= p <= n / 2 tiles it exactly (a
period one match reports no cycle at once); the alternating six move history
yields Defect and the constant six move history yields Cooperate. -/
theorem C1_cycle_hunter :
    (∀ self opponent : PlayerView,
      (CycleHunter.strategy self opponent = Move.D ↔
        CycleHunter.detect_cycle opponent.history = true)) ∧
    (∀ h : List Move,
      CycleHunter.detect_cycle h = true ↔
        (tile (h.take 1) h.length ≠ h ∧
          ∃ p, 2 ≤ p ∧ p ≤ h.length / 2 ∧ tile (h.take p) h.length = h)) ∧
    CycleHunter.strategy ⟨[], 0, 0⟩
      ⟨[Move.C, Move.D, Move.C, Move.D, Move.C, Move.D], 3, 3⟩ = Move.D ∧
    CycleHunter.strategy ⟨[], 0, 0⟩ ⟨List.replicate 6 Move.C, 6, 0⟩ = Move.C := by
  refine ⟨fun self opponent => ?_, detect_cycle_eq_true_iff, by decide, by decide⟩
  unfold CycleHunter.strategy
  cases hd : CycleHunter.detect_cycle opponent.history <;> simp [hd]

/-- Claim C2: the trailing window holds the last min 15 n opponent moves; an
opponent history shorter than 10 or equal to its cooperation count yields
Cooperate; otherwise the hunter defects exactly when some period p with
1 <= p <= m / 2 tiles the window, period one included. -/
theorem C2_eventual_cycle_hunter :
    ∀ self opponent : PlayerView,
      ((opponent.history.drop (opponent.history.length - 15)).length
          = min 15 opponent.history.length) ∧
      (opponent.history.length < 10 →
        EventualCycleHunter.strategy self opponent = Move.C) ∧
      (10 ≤ opponent.history.length →
        opponent.history.length = opponent.cooperations →
        EventualCycleHunter.strategy self opponent = Move.C) ∧
      (10 ≤ opponent.history.length →
        opponent.history.length ≠ opponent.cooperations →
        (EventualCycleHunter.strategy self opponent = Move.D ↔
          ∃ p, 1 ≤ p ∧
            p ≤ (opponent.history.drop (opponent.history.length - 15)).length / 2 ∧
            tile ((opponent.history.drop (opponent.history.length - 15)).take p)
                (opponent.history.drop (opponent.history.length - 15)).length
              = opponent.history.drop (opponent.history.length - 15))) := by
  intro self opponent
  refine ⟨?_, ?_, ?_, ?_⟩
  · rw [List.length_drop]
    omega
  · intro h
    unfold EventualCycleHunter.strategy
    rw [if_pos h]
  · intro h10 hcoop
    unfold EventualCycleHunter.strategy
    rw [if_neg (by omega), if_pos hcoop]
  · intro h10 hcoop
    unfold EventualCycleHunter.strategy
    rw [if_neg (by omega), if_neg hcoop]
    have hiff := detect_eventual_cycle_eq_true_iff opponent.history
    by_cases hd : EventualCycleHunter.detect_eventual_cycle opponent.history = true
    · rw [if_pos hd]
      exact ⟨fun _ => hiff.mp hd, fun _ => rfl⟩
    · rw [if_neg hd]
      exact ⟨fun h => absurd h (by decide), fun hp => absurd (hiff.mpr hp) hd⟩

/-- Claim C2 witness: ten alternating opponent moves trigger Defect. -/
theorem C2_witness :
    EventualCycleHunter.strategy ⟨[], 0, 0⟩
      ⟨[Move.C, Move.D, Move.C, Move.D, Move.C, Move.D, Move.C, Move.D, Move.C,
        Move.D], 5, 5⟩ = Move.D :=
  ((C2_eventual_cycle_hunter ⟨[], 0, 0⟩
      ⟨[Move.C, Move.D, Move.C, Move.D, Move.C, Move.D, Move.C, Move.D, Move.C,
        Move.D], 5, 5⟩).2.2.2 (by decide) (by decide)).mpr
    ⟨2, by decide, by decide, by decide⟩

/-- Claim C5: on a well formed pair of views AlternatorHunter defects exactly
when the opponent history is non empty, strictly alternating over its whole
length, and the own history has at least 6 moves. -/
theorem C5_alternator_hunter :
    ∀ self opponent : PlayerView, WfPair self opponent →
      (AlternatorHunter.strategy self opponent = Move.D ↔
        1 ≤ opponent.history.length ∧
        (∀ i, i + 1 < opponent.history.length →
          nth opponent.history i ≠ nth opponent.history (i + 1)) ∧
        6 ≤ self.history.length) := by
  intro self opponent hwf
  obtain ⟨hlen, -, -⟩ := hwf
  unfold AlternatorHunter.strategy
  by_cases hc : 6 ≤ self.history.length ∧
      ∀ i ∈ List.range (opponent.history.length - 1),
        nth opponent.history i ≠ nth opponent.history (i + 1)
  · rw [if_pos hc]
    refine ⟨fun _ => ⟨by omega, fun i hi => hc.2 i (List.mem_range.mpr (by omega)), hc.1⟩,
      fun _ => rfl⟩
  · rw [if_neg hc]
    refine ⟨fun h => absurd h (by decide), ?_⟩
    rintro ⟨h1, hall, h6⟩
    exact absurd ⟨h6, fun i hi => hall i (by have := List.mem_range.mp hi; omega)⟩ hc

/-- Claim C5 witness: six own moves against six strictly alternating opponent
moves trigger Defect. -/
theorem C5_witness :
    AlternatorHunter.strategy ⟨List.replicate 6 Move.C, 6, 0⟩
      ⟨[Move.C, Move.D, Move.C, Move.D, Move.C, Move.D], 3, 3⟩ = Move.D := by
  refine (C5_alternator_hunter ⟨List.replicate 6 Move.C, 6, 0⟩
      ⟨[Move.C, Move.D, Move.C, Move.D, Move.C, Move.D], 3, 3⟩
      ⟨by decide, ⟨by decide, by decide⟩, ⟨by decide, by decide⟩⟩).mpr
    ⟨by decide, ?_, by decide⟩
  intro i hi
  have h5 : i < 5 := by
    simp at hi
    omega
  interval_cases i <;> decide

/-- Claim C6: DefectorHunter defects exactly when the own history has at least
4 moves and the opponent history length equals its defection count, and
symmetrically for CooperatorHunter with the cooperation count; under exact
derived counts a single C (resp. D) in the opponent history forces Cooperate. -/
theorem C6_constant_hunters :
    ∀ self opponent : PlayerView,
      (DefectorHunter.strategy self opponent = Move.D ↔
        4 ≤ self.history.length ∧ opponent.history.length = opponent.defections) ∧
      (CooperatorHunter.strategy self opponent = Move.D ↔
        4 ≤ self.history.length ∧ opponent.history.length = opponent.cooperations) ∧
      (CountsExact opponent → Move.C ∈ opponent.history →
        DefectorHunter.strategy self opponent = Move.C) ∧
      (CountsExact opponent → Move.D ∈ opponent.history →
        CooperatorHunter.strategy self opponent = Move.C) := by
  intro self opponent
  refine ⟨?_, ?_, ?_, ?_⟩
  · unfold DefectorHunter.strategy
    by_cases hc : 4 ≤ self.history.length ∧ opponent.history.length = opponent.defections
    · rw [if_pos hc]
      exact ⟨fun _ => hc, fun _ => rfl⟩
    · rw [if_neg hc]
      exact ⟨fun h => absurd h (by decide), fun h => absurd h hc⟩
  · unfold CooperatorHunter.strategy
    by_cases hc : 4 ≤ self.history.length ∧ opponent.history.length = opponent.cooperations
    · rw [if_pos hc]
      exact ⟨fun _ => hc, fun _ => rfl⟩
    · rw [if_neg hc]
      exact ⟨fun h => absurd h (by decide), fun h => absurd h hc⟩
  · intro hce hmem
    have h1 : 0 < countC opponent.history := List.count_pos_iff.mpr hmem
    have h2 := countC_add_countD opponent.history
    unfold DefectorHunter.strategy
    rw [if_neg]
    rintro ⟨-, hl⟩
    rw [hce.2] at hl
    omega
  · intro hce hmem
    have h1 : 0 < countD opponent.history := List.count_pos_iff.mpr hmem
    have h2 := countC_add_countD opponent.history
    unfold CooperatorHunter.strategy
    rw [if_neg]
    rintro ⟨-, hl⟩
    rw [hce.1] at hl
    omega

/-- Claim C6 witness: a lone opponent C keeps DefectorHunter cooperating. -/
theorem C6_witness :
    DefectorHunter.strategy ⟨[], 0, 0⟩ ⟨[Move.C], 1, 0⟩ = Move.C :=
  (C6_constant_hunters ⟨[], 0, 0⟩ ⟨[Move.C], 1, 0⟩).2.2.1 ⟨rfl, rfl⟩ (by decide)

/-- Claim C8: every hunter is a pure function of the two views: equal
histories and equal derived counts give equal decisions. -/
theorem C8_determinism :
    ∀ s1 s2 o1 o2 : PlayerView,
      s1.history = s2.history → s1.cooperations = s2.cooperations →
      s1.defections = s2.defections → o1.history = o2.history →
      o1.cooperations = o2.cooperations → o1.defections = o2.defections →
      DefectorHunter.strategy s1 o1 = DefectorHunter.strategy s2 o2 ∧
      CooperatorHunter.strategy s1 o1 = CooperatorHunter.strategy s2 o2 ∧
      AlternatorHunter.strategy s1 o1 = AlternatorHunter.strategy s2 o2 ∧
      CycleHunter.strategy s1 o1 = CycleHunter.strategy s2 o2 ∧
      EventualCycleHunter.strategy s1 o1 = EventualCycleHunter.strategy s2 o2 ∧
      MathConstantHunter.strategy s1 o1 = MathConstantHunter.strategy s2 o2 ∧
      RandomHunter.strategy s1 o1 = RandomHunter.strategy s2 o2 := by
  rintro ⟨sh1, sc1, sd1⟩ ⟨sh2, sc2, sd2⟩ ⟨oh1, oc1, od1⟩ ⟨oh2, oc2, od2⟩ h1 h2 h3 h4 h5 h6
  dsimp only at h1 h2 h3 h4 h5 h6
  subst h1
  subst h2
  subst h3
  subst h4
  subst h5
  subst h6
  exact ⟨rfl, rfl, rfl, rfl, rfl, rfl, rfl⟩

/-- Claim C8 witness: identical empty views give identical decisions. -/
theorem C8_witness :
    DefectorHunter.strategy ⟨[], 0, 0⟩ ⟨[], 0, 0⟩ =
        DefectorHunter.strategy ⟨[], 0, 0⟩ ⟨[], 0, 0⟩ ∧
      CooperatorHunter.strategy ⟨[], 0, 0⟩ ⟨[], 0, 0⟩ =
        CooperatorHunter.strategy ⟨[], 0, 0⟩ ⟨[], 0, 0⟩ ∧
      AlternatorHunter.strategy ⟨[], 0, 0⟩ ⟨[], 0, 0⟩ =
        AlternatorHunter.strategy ⟨[], 0, 0⟩ ⟨[], 0, 0⟩ ∧
      CycleHunter.strategy ⟨[], 0, 0⟩ ⟨[], 0, 0⟩ =
        CycleHunter.strategy ⟨[], 0, 0⟩ ⟨[], 0, 0⟩ ∧
      EventualCycleHunter.strategy ⟨[], 0, 0⟩ ⟨[], 0, 0⟩ =
        EventualCycleHunter.strategy ⟨[], 0, 0⟩ ⟨[], 0, 0⟩ ∧
      MathConstantHunter.strategy ⟨[], 0, 0⟩ ⟨[], 0, 0⟩ =
        MathConstantHunter.strategy ⟨[], 0, 0⟩ ⟨[], 0, 0⟩ ∧
      RandomHunter.strategy ⟨[], 0, 0⟩ ⟨[], 0, 0⟩ =
        RandomHunter.strategy ⟨[], 0, 0⟩ ⟨[], 0, 0⟩ :=
  C8_determinism ⟨[], 0, 0⟩ ⟨[], 0, 0⟩ ⟨[], 0, 0⟩ ⟨[], 0, 0⟩ rfl rfl rfl rfl rfl rfl

/-- Claim C9: with both histories of length at most 3 every hunter cooperates;
CycleHunter has no explicit length guard, but its candidate search cannot
report a cycle on a history of at most three moves. -/
theorem C9_short_histories :
    ∀ self opponent : PlayerView,
      self.history.length ≤ 3 → opponent.history.length ≤ 3 →
      DefectorHunter.strategy self opponent = Move.C ∧
      CooperatorHunter.strategy self opponent = Move.C ∧
      AlternatorHunter.strategy self opponent = Move.C ∧
      CycleHunter.strategy self opponent = Move.C ∧
      EventualCycleHunter.strategy self opponent = Move.C ∧
      MathConstantHunter.strategy self opponent = Move.C ∧
      RandomHunter.strategy self opponent = Move.C := by
  intro self opponent hs ho
  refine ⟨?_, ?_, ?_, ?_, ?_, ?_, ?_⟩
  · unfold DefectorHunter.strategy
    rw [if_neg]
    rintro ⟨h4, -⟩
    omega
  · unfold CooperatorHunter.strategy
    rw [if_neg]
    rintro ⟨h4, -⟩
    omega
  · unfold AlternatorHunter.strategy
    rw [if_neg]
    rintro ⟨h6, -⟩
    omega
  · unfold CycleHunter.strategy
    rw [detect_cycle_short opponent.history ho]
    simp
  · unfold EventualCycleHunter.strategy
    rw [if_pos (by omega : opponent.history.length < 10)]
  · simp only [MathConstantHunter.strategy]
    rw [if_neg]
    rintro ⟨h8, -⟩
    omega
  · unfold RandomHunter.strategy
    rw [if_neg]
    omega

/-- Claim C9 witness: both views empty make every hunter cooperate. -/
theorem C9_witness :
    DefectorHunter.strategy ⟨[], 0, 0⟩ ⟨[], 0, 0⟩ = Move.C ∧
      CooperatorHunter.strategy ⟨[], 0, 0⟩ ⟨[], 0, 0⟩ = Move.C ∧
      AlternatorHunter.strategy ⟨[], 0, 0⟩ ⟨[], 0, 0⟩ = Move.C ∧
      CycleHunter.strategy ⟨[], 0, 0⟩ ⟨[], 0, 0⟩ = Move.C ∧
      EventualCycleHunter.strategy ⟨[], 0, 0⟩ ⟨[], 0, 0⟩ = Move.C ∧
      MathConstantHunter.strategy ⟨[], 0, 0⟩ ⟨[], 0, 0⟩ = Move.C ∧
      RandomHunter.strategy ⟨[], 0, 0⟩ ⟨[], 0, 0⟩ = Move.C :=
  C9_short_histories ⟨[], 0, 0⟩ ⟨[], 0, 0⟩ (by decide) (by decide)

/-- Claim C3: under the guard (own length at least 8, opponent counts both
non zero) MathConstantHunter defects exactly when the first window ratio is
within 0.2 of the other two; in every other case it cooperates; each window
ratio is 0.5 times the combined C count over the window length. -/
theorem C3_math_constant_hunter :
    ∀ self opponent : PlayerView,
      (8 ≤ self.history.length → opponent.cooperations ≠ 0 → opponent.defections ≠ 0 →
        (MathConstantHunter.strategy self opponent = Move.D ↔
          |MathConstantHunter.comboRatio self opponent 0 (self.history.length / 2) -
              MathConstantHunter.comboRatio self opponent (self.history.length / 4)
                (3 * self.history.length / 4)| < (0.2 : ℚ) ∧
          |MathConstantHunter.comboRatio self opponent 0 (self.history.length / 2) -
              MathConstantHunter.comboRatio self opponent (self.history.length / 2)
                self.history.length| < (0.2 : ℚ))) ∧
      (¬(8 ≤ self.history.length ∧ opponent.cooperations ≠ 0 ∧ opponent.defections ≠ 0) →
        MathConstantHunter.strategy self opponent = Move.C) ∧
      (∀ a b : Nat, MathConstantHunter.comboRatio self opponent a b =
        (0.5 : ℚ) * ((countC (pySlice opponent.history a b)
          + countC (pySlice self.history a b) : Nat) : ℚ) / ((b - a : Nat) : ℚ)) := by
  intro self opponent
  refine ⟨?_, ?_, fun a b => rfl⟩
  · intro h8 hc hd
    simp only [MathConstantHunter.strategy]
    rw [if_pos ⟨h8, hc, hd⟩]
    by_cases habs :
        |MathConstantHunter.comboRatio self opponent 0 (self.history.length / 2) -
            MathConstantHunter.comboRatio self opponent (self.history.length / 4)
              (3 * self.history.length / 4)| < (0.2 : ℚ) ∧
          |MathConstantHunter.comboRatio self opponent 0 (self.history.length / 2) -
            MathConstantHunter.comboRatio self opponent (self.history.length / 2)
              self.history.length| < (0.2 : ℚ)
    · rw [if_pos habs]
      exact ⟨fun _ => habs, fun _ => rfl⟩
    · rw [if_neg habs]
      exact ⟨fun h => absurd h (by decide), fun h => absurd h habs⟩
  · intro hne
    simp only [MathConstantHunter.strategy]
    rw [if_neg hne]

/-- First window ratio of the eight round example: 0.5 * 6 / 4. -/
theorem comboRatio_ex1 :
    MathConstantHunter.comboRatio ⟨List.replicate 8 Move.C, 8, 0⟩
      ⟨[Move.C, Move.D, Move.C, Move.D, Move.C, Move.D, Move.C, Move.D], 4, 4⟩ 0 4
      = 3 / 4 := by
  have c1 : MathConstantHunter.comboCount ⟨List.replicate 8 Move.C, 8, 0⟩
      ⟨[Move.C, Move.D, Move.C, Move.D, Move.C, Move.D, Move.C, Move.D], 4, 4⟩ 0 4 = 6 := by
    decide
  unfold MathConstantHunter.comboRatio
  rw [c1]
  norm_num

/-- Middle window ratio of the eight round example: 0.5 * 6 / 4. -/
theorem comboRatio_ex2 :
    MathConstantHunter.comboRatio ⟨List.replicate 8 Move.C, 8, 0⟩
      ⟨[Move.C, Move.D, Move.C, Move.D, Move.C, Move.D, Move.C, Move.D], 4, 4⟩ 2 6
      = 3 / 4 := by
  have c2 : MathConstantHunter.comboCount ⟨List.replicate 8 Move.C, 8, 0⟩
      ⟨[Move.C, Move.D, Move.C, Move.D, Move.C, Move.D, Move.C, Move.D], 4, 4⟩ 2 6 = 6 := by
    decide
  unfold MathConstantHunter.comboRatio
  rw [c2]
  norm_num

/-- Last window ratio of the eight round example: 0.5 * 6 / 4. -/
theorem comboRatio_ex3 :
    MathConstantHunter.comboRatio ⟨List.replicate 8 Move.C, 8, 0⟩
      ⟨[Move.C, Move.D, Move.C, Move.D, Move.C, Move.D, Move.C, Move.D], 4, 4⟩ 4 8
      = 3 / 4 := by
  have c3 : MathConstantHunter.comboCount ⟨List.replicate 8 Move.C, 8, 0⟩
      ⟨[Move.C, Move.D, Move.C, Move.D, Move.C, Move.D, Move.C, Move.D], 4, 4⟩ 4 8 = 6 := by
    decide
  unfold MathConstantHunter.comboRatio
  rw [c3]
  norm_num

/-- MathConstantHunter defects against the eight round alternating opponent
with a constantly cooperating own history. -/
theorem mathD_concrete :
    MathConstantHunter.strategy ⟨List.replicate 8 Move.C, 8, 0⟩
      ⟨[Move.C, Move.D, Move.C, Move.D, Move.C, Move.D, Move.C, Move.D], 4, 4⟩
      = Move.D := by
  simp only [MathConstantHunter.strategy, List.length_replicate]
  norm_num [comboRatio_ex1, comboRatio_ex2, comboRatio_ex3]

/-- Claim C3 witness: the guarded iff applied to the eight round example. -/
theorem C3_witness :
    MathConstantHunter.strategy ⟨List.replicate 8 Move.C, 8, 0⟩
      ⟨[Move.C, Move.D, Move.C, Move.D, Move.C, Move.D, Move.C, Move.D], 4, 4⟩
      = Move.D := by
  refine ((C3_math_constant_hunter ⟨List.replicate 8 Move.C, 8, 0⟩
      ⟨[Move.C, Move.D, Move.C, Move.D, Move.C, Move.D, Move.C, Move.D], 4, 4⟩).1
      (by decide) (by decide) (by decide)).mpr ?_
  simp only [List.length_replicate]
  norm_num [comboRatio_ex1, comboRatio_ex2, comboRatio_ex3]

/-- Claim C4: with own history longer than 10, RandomHunter defects exactly
when the probabilities list is non empty and each entry is within 0.25 of
0.5; with own history of at most 10 it cooperates; the probabilities list
holds the guarded conditional frequencies. -/
theorem C4_random_hunter :
    ∀ self opponent : PlayerView,
      (10 < self.history.length →
        (RandomHunter.strategy self opponent = Move.D ↔
          RandomHunter.probabilities self opponent ≠ [] ∧
            ∀ p ∈ RandomHunter.probabilities self opponent,
              |p - (0.5 : ℚ)| < (0.25 : ℚ))) ∧
      (self.history.length ≤ 10 → RandomHunter.strategy self opponent = Move.C) ∧
      (RandomHunter.probabilities self opponent =
        (if 5 < countC (self.history.take (self.history.length - 1)) then
          [(RandomHunter.countCC self opponent : ℚ)
            / (countC (self.history.take (self.history.length - 1)) : ℚ)]
        else [])
          ++ (if 5 < countD (self.history.take (self.history.length - 1)) then
            [(RandomHunter.countDD self opponent : ℚ)
              / (countD (self.history.take (self.history.length - 1)) : ℚ)]
          else [])) := by
  intro self opponent
  refine ⟨?_, ?_, rfl⟩
  · intro h10
    unfold RandomHunter.strategy
    rw [if_pos h10]
    by_cases hc : RandomHunter.probabilities self opponent ≠ [] ∧
        ∀ p ∈ RandomHunter.probabilities self opponent, |p - (0.5 : ℚ)| < (0.25 : ℚ)
    · rw [if_pos hc]
      exact ⟨fun _ => hc, fun _ => rfl⟩
    · rw [if_neg hc]
      exact ⟨fun h => absurd h (by decide), fun h => absurd h hc⟩
  · intro hle
    unfold RandomHunter.strategy
    rw [if_neg (by omega)]

/-- The probabilities list of the twelve round example: only the C branch
fires, with 5 matches among 11 own cooperations. -/
theorem randomProbs_concrete :
    RandomHunter.probabilities ⟨List.replicate 12 Move.C, 12, 0⟩
      ⟨[Move.C, Move.D, Move.C, Move.D, Move.C, Move.D, Move.C, Move.D, Move.C, Move.D,
        Move.C, Move.D], 6, 6⟩ = [(5 : ℚ) / 11] := by
  have hcc : RandomHunter.countCC ⟨List.replicate 12 Move.C, 12, 0⟩
      ⟨[Move.C, Move.D, Move.C, Move.D, Move.C, Move.D, Move.C, Move.D, Move.C, Move.D,
        Move.C, Move.D], 6, 6⟩ = 5 := by decide
  have hc : countC (List.replicate 11 Move.C) = 11 := by decide
  have hd : countD (List.replicate 11 Move.C) = 0 := by decide
  simp only [RandomHunter.probabilities, List.length_replicate]
  norm_num [hcc, hc, hd]

/-- RandomHunter defects against the twelve round alternating opponent with a
constantly cooperating own history. -/
theorem randomD_concrete :
    RandomHunter.strategy ⟨List.replicate 12 Move.C, 12, 0⟩
      ⟨[Move.C, Move.D, Move.C, Move.D, Move.C, Move.D, Move.C, Move.D, Move.C, Move.D,
        Move.C, Move.D], 6, 6⟩ = Move.D := by
  unfold RandomHunter.strategy
  rw [if_pos (by decide), if_pos]
  rw [randomProbs_concrete]
  constructor
  · simp
  · intro p hp
    simp only [List.mem_singleton] at hp
    subst hp
    rw [abs_lt]
    constructor <;> norm_num

/-- Claim C4 witness: the guarded iff applied to the twelve round example. -/
theorem C4_witness :
    RandomHunter.strategy ⟨List.replicate 12 Move.C, 12, 0⟩
      ⟨[Move.C, Move.D, Move.C, Move.D, Move.C, Move.D, Move.C, Move.D, Move.C, Move.D,
        Move.C, Move.D], 6, 6⟩ = Move.D := by
  refine ((C4_random_hunter ⟨List.replicate 12 Move.C, 12, 0⟩
      ⟨[Move.C, Move.D, Move.C, Move.D, Move.C, Move.D, Move.C, Move.D, Move.C, Move.D,
        Move.C, Move.D], 6, 6⟩).1 (by decide)).mpr ⟨?_, ?_⟩
  · rw [randomProbs_concrete]
    simp
  · rw [randomProbs_concrete]
    intro p hp
    simp only [List.mem_singleton] at hp
    subst hp
    rw [abs_lt]
    constructor <;> norm_num

/-- CycleHunter.strategy never reads the own view of the acting player: its
result is a function of the opponent view alone. -/
def cycleHunterIgnoresOwn : Prop :=
  ∀ s1 s2 opponent : PlayerView,
    CycleHunter.strategy s1 opponent = CycleHunter.strategy s2 opponent

/-- Claim C10 counterexample: CycleHunter, one of the other hunters of the
file, also never reads its own history; in particular its decision at the
four move alternating opponent is unchanged between an empty own history and
twelve own moves, although those lengths lie on both sides of every guard. -/
theorem C10_counterexample :
    cycleHunterIgnoresOwn ∧
    CycleHunter.strategy ⟨[], 0, 0⟩ ⟨[Move.C, Move.D, Move.C, Move.D], 2, 2⟩ =
      CycleHunter.strategy ⟨List.replicate 12 Move.C, 12, 0⟩
        ⟨[Move.C, Move.D, Move.C, Move.D], 2, 2⟩ :=
  ⟨fun _ _ _ => rfl, rfl⟩

/-- Claim C10 amended: the decision of EventualCycleHunter depends only on
the opponent view, and so does the decision of CycleHunter; the remaining
five hunters do read the own history, witnessed here by pairs of own
histories that flip their decision. -/
theorem C10_amended :
    (∀ s1 s2 opponent : PlayerView,
      EventualCycleHunter.strategy s1 opponent
        = EventualCycleHunter.strategy s2 opponent) ∧
    (∀ s1 s2 opponent : PlayerView,
      CycleHunter.strategy s1 opponent = CycleHunter.strategy s2 opponent) ∧
    (∃ s1 s2 opponent : PlayerView,
      DefectorHunter.strategy s1 opponent ≠ DefectorHunter.strategy s2 opponent) ∧
    (∃ s1 s2 opponent : PlayerView,
      CooperatorHunter.strategy s1 opponent ≠ CooperatorHunter.strategy s2 opponent) ∧
    (∃ s1 s2 opponent : PlayerView,
      AlternatorHunter.strategy s1 opponent ≠ AlternatorHunter.strategy s2 opponent) ∧
    (∃ s1 s2 opponent : PlayerView,
      MathConstantHunter.strategy s1 opponent ≠ MathConstantHunter.strategy s2 opponent) ∧
    (∃ s1 s2 opponent : PlayerView,
      RandomHunter.strategy s1 opponent ≠ RandomHunter.strategy s2 opponent) := by
  refine ⟨fun _ _ _ => rfl, fun _ _ _ => rfl, ?_, ?_, ?_, ?_, ?_⟩
  · exact ⟨⟨List.replicate 4 Move.C, 4, 0⟩, ⟨[], 0, 0⟩,
      ⟨List.replicate 4 Move.D, 0, 4⟩, by decide⟩
  · exact ⟨⟨List.replicate 4 Move.C, 4, 0⟩, ⟨[], 0, 0⟩,
      ⟨List.replicate 4 Move.C, 4, 0⟩, by decide⟩
  · exact ⟨⟨List.replicate 6 Move.C, 6, 0⟩, ⟨[], 0, 0⟩,
      ⟨[Move.C, Move.D, Move.C, Move.D, Move.C, Move.D], 3, 3⟩, by decide⟩
  · refine ⟨⟨List.replicate 8 Move.C, 8, 0⟩, ⟨[], 0, 0⟩,
      ⟨[Move.C, Move.D, Move.C, Move.D, Move.C, Move.D, Move.C, Move.D], 4, 4⟩, ?_⟩
    rw [mathD_concrete]
    decide
  · refine ⟨⟨List.replicate 12 Move.C, 12, 0⟩, ⟨[], 0, 0⟩,
      ⟨[Move.C, Move.D, Move.C, Move.D, Move.C, Move.D, Move.C, Move.D, Move.C, Move.D,
        Move.C, Move.D], 6, 6⟩, ?_⟩
    rw [randomD_concrete]
    decide

theorem mapM_ne_eq (oh : List Move) (l : List Nat)
    (hx : ∀ i ∈ l, i < oh.length) (hy : ∀ i ∈ l, i + 1 < oh.length) :
    (l.mapM (fun i => do
      let a ← oh[i]?
      let b ← oh[i + 1]?
      pure (decide (a ≠ b))))
    = some (l.map (fun i => decide (nth oh i ≠ nth oh (i + 1)))) :=
  mapM_get2 oh oh (fun a b => decide (a ≠ b)) l hx hy

theorem alternatorChecked_eq (self opponent : PlayerView) :
    AlternatorHunter.strategyChecked self opponent
      = some (AlternatorHunter.strategy self opponent) := by
  have hx : ∀ i ∈ List.range (opponent.history.length - 1), i < opponent.history.length :=
    fun i hi => by have := List.mem_range.mp hi; omega
  have hy : ∀ i ∈ List.range (opponent.history.length - 1),
      i + 1 < opponent.history.length :=
    fun i hi => by have := List.mem_range.mp hi; omega
  simp only [AlternatorHunter.strategyChecked, AlternatorHunter.strategy]
  rw [mapM_ne_eq opponent.history _ hx hy]
  simp only [Option.bind_eq_bind, Option.some_bind, Option.pure_def]
  refine congrArg some (if_congr (and_congr_right fun _ => ?_) rfl rfl)
  rw [List.all_eq_true]
  constructor
  · intro hall i hi
    exact of_decide_eq_true (hall _ (List.mem_map_of_mem _ hi))
  · intro hall x hx
    obtain ⟨i, hi, rfl⟩ := List.mem_map.mp hx
    exact decide_eq_true (hall i hi)

theorem mathChecked_eq (self opponent : PlayerView) :
    MathConstantHunter.strategyChecked self opponent
      = some (MathConstantHunter.strategy self opponent) := by
  by_cases hg : 8 ≤ self.history.length ∧
      opponent.cooperations ≠ 0 ∧ opponent.defections ≠ 0
  · have d1 : ((self.history.length / 2 - 0 : Nat) : ℚ) ≠ 0 := by
      rw [Nat.cast_ne_zero]
      omega
    have d2 : ((3 * self.history.length / 4 - self.history.length / 4 : Nat) : ℚ) ≠ 0 := by
      rw [Nat.cast_ne_zero]
      omega
    have d3 : ((self.history.length - self.history.length / 2 : Nat) : ℚ) ≠ 0 := by
      rw [Nat.cast_ne_zero]
      omega
    simp only [MathConstantHunter.strategyChecked, MathConstantHunter.strategy,
      MathConstantHunter.comboRatio, divQChecked]
    rw [if_pos hg, if_pos hg, if_neg d1, if_neg d2, if_neg d3]
    simp only [Option.bind_eq_bind, Option.some_bind, Option.pure_def]
  · simp only [MathConstantHunter.strategyChecked, MathConstantHunter.strategy]
    rw [if_neg hg, if_neg hg]
    rfl

theorem mapM_pair_eq (xs ys : List Move) (m : Move) (l : List Nat)
    (hx : ∀ i ∈ l, i < xs.length) (hy : ∀ i ∈ l, i + 1 < ys.length) :
    (l.mapM (fun i => do
      let a ← xs[i]?
      let b ← ys[i + 1]?
      pure (decide (a = m ∧ b = m))))
    = some (l.map (fun i => decide (nth xs i = m ∧ nth ys (i + 1) = m))) :=
  mapM_get2 xs ys (fun a b => decide (a = m ∧ b = m)) l hx hy

theorem length_filter_flags (xs ys : List Move) (m : Move) (l : List Nat) :
    ((l.map (fun i => decide (nth xs i = m ∧ nth ys (i + 1) = m))).filter
      (fun f => f)).length
    = (l.filter (fun i => decide (nth xs i = m ∧ nth ys (i + 1) = m))).length :=
  length_filter_map_decide (fun i => nth xs i = m ∧ nth ys (i + 1) = m) l

theorem randomChecked_eq (self opponent : PlayerView)
    (hlen : self.history.length = opponent.history.length) :
    RandomHunter.strategyChecked self opponent
      = some (RandomHunter.strategy self opponent) := by
  by_cases h10 : 10 < self.history.length
  · have hx : ∀ i ∈ List.range (self.history.length - 1), i < self.history.length :=
      fun i hi => by have := List.mem_range.mp hi; omega
    have hy : ∀ i ∈ List.range (self.history.length - 1),
        i + 1 < opponent.history.length :=
      fun i hi => by have := List.mem_range.mp hi; omega
    simp only [RandomHunter.strategyChecked, RandomHunter.strategy,
      RandomHunter.probabilities, RandomHunter.countCC, RandomHunter.countDD]
    rw [if_pos h10, if_pos h10]
    by_cases hC : 5 < countC (self.history.take (self.history.length - 1)) <;>
      by_cases hD : 5 < countD (self.history.take (self.history.length - 1))
    · have eC : ((countC (self.history.take (self.history.length - 1)) : Nat) : ℚ) ≠ 0 := by
        rw [Nat.cast_ne_zero]
        omega
      have eD : ((countD (self.history.take (self.history.length - 1)) : Nat) : ℚ) ≠ 0 := by
        rw [Nat.cast_ne_zero]
        omega
      rw [if_pos hC, if_pos hC,
        mapM_pair_eq self.history opponent.history Move.C _ hx hy,
        mapM_pair_eq self.history opponent.history Move.D _ hx hy]
      simp only [Option.bind_eq_bind, Option.some_bind, divQChecked,
        length_filter_flags, if_neg eC, if_neg eD, Option.pure_def]
      rw [if_pos hD, if_pos hD]
    · have eC : ((countC (self.history.take (self.history.length - 1)) : Nat) : ℚ) ≠ 0 := by
        rw [Nat.cast_ne_zero]
        omega
      rw [if_pos hC, if_pos hC,
        mapM_pair_eq self.history opponent.history Move.C _ hx hy]
      simp only [Option.bind_eq_bind, Option.some_bind, divQChecked,
        length_filter_flags, if_neg eC, Option.pure_def]
      rw [if_neg hD, if_neg hD]
    · have eD : ((countD (self.history.take (self.history.length - 1)) : Nat) : ℚ) ≠ 0 := by
        rw [Nat.cast_ne_zero]
        omega
      rw [if_neg hC, if_neg hC,
        mapM_pair_eq self.history opponent.history Move.D _ hx hy]
      simp only [Option.bind_eq_bind, Option.some_bind, divQChecked,
        length_filter_flags, if_neg eD, Option.pure_def]
      rw [if_pos hD, if_pos hD]
    · rw [if_neg hC, if_neg hC]
      simp only [Option.bind_eq_bind, Option.some_bind, Option.pure_def]
      rw [if_neg hD, if_neg hD]
  · simp only [RandomHunter.strategyChecked, RandomHunter.strategy]
    rw [if_neg h10, if_neg h10]
    rfl

/-- Claim C7: on every well formed pair of views the hunters are total: the
variants of the three strategies that perform indexing or division, with
every index access and every division checked, never fail and agree with the
plain functions; the remaining four hunters perform no indexing and no
division, and their embeddings are total functions of the two views by
construction. -/
theorem C7_totality :
    ∀ self opponent : PlayerView, WfPair self opponent →
      AlternatorHunter.strategyChecked self opponent
          = some (AlternatorHunter.strategy self opponent) ∧
      MathConstantHunter.strategyChecked self opponent
          = some (MathConstantHunter.strategy self opponent) ∧
      RandomHunter.strategyChecked self opponent
          = some (RandomHunter.strategy self opponent) :=
  fun self opponent hwf =>
    ⟨alternatorChecked_eq self opponent, mathChecked_eq self opponent,
      randomChecked_eq self opponent hwf.1⟩

/-- Claim C7 witness: the checked strategies succeed on a twelve round match. -/
theorem C7_witness :
    AlternatorHunter.strategyChecked ⟨List.replicate 12 Move.C, 12, 0⟩
        ⟨[Move.C, Move.D, Move.C, Move.D, Move.C, Move.D, Move.C, Move.D, Move.C, Move.D,
          Move.C, Move.D], 6, 6⟩
        = some (AlternatorHunter.strategy ⟨List.replicate 12 Move.C, 12, 0⟩
          ⟨[Move.C, Move.D, Move.C, Move.D, Move.C, Move.D, Move.C, Move.D, Move.C, Move.D,
            Move.C, Move.D], 6, 6⟩) ∧
      MathConstantHunter.strategyChecked ⟨List.replicate 12 Move.C, 12, 0⟩
        ⟨[Move.C, Move.D, Move.C, Move.D, Move.C, Move.D, Move.C, Move.D, Move.C, Move.D,
          Move.C, Move.D], 6, 6⟩
        = some (MathConstantHunter.strategy ⟨List.replicate 12 Move.C, 12, 0⟩
          ⟨[Move.C, Move.D, Move.C, Move.D, Move.C, Move.D, Move.C, Move.D, Move.C, Move.D,
            Move.C, Move.D], 6, 6⟩) ∧
      RandomHunter.strategyChecked ⟨List.replicate 12 Move.C, 12, 0⟩
        ⟨[Move.C, Move.D, Move.C, Move.D, Move.C, Move.D, Move.C, Move.D, Move.C, Move.D,
          Move.C, Move.D], 6, 6⟩
        = some (RandomHunter.strategy ⟨List.replicate 12 Move.C, 12, 0⟩
          ⟨[Move.C, Move.D, Move.C, Move.D, Move.C, Move.D, Move.C, Move.D, Move.C, Move.D,
            Move.C, Move.D], 6, 6⟩) :=
  C7_totality ⟨List.replicate 12 Move.C, 12, 0⟩
    ⟨[Move.C, Move.D, Move.C, Move.D, Move.C, Move.D, Move.C, Move.D, Move.C, Move.D,
      Move.C, Move.D], 6, 6⟩
    ⟨by decide, ⟨by decide, by decide⟩, ⟨by decide, by decide⟩⟩
